import Mathlib

set_option maxRecDepth 8000

namespace SortingHat

/-! Shallow embedding of the SortingHat-AI résumé parsing and job-match
scoring engine (`src/sortinghat/models.py`, `scoring.py`, `parser.py`).
Python strings are Lean `String`s; Python `float` results of the scoring
arithmetic are modelled as `ℚ` with `round(x, 2)` modelled as exact
round-half-to-even on rationals; Python `set`s are `Finset String`;
Python `dict`s built by successive assignment are association lists with
last-assignment-wins lookup.  -/

/-! ### Python string primitives -/

/-- Python `str.lower` character map (ASCII letters; the entire skill and
section vocabulary of the program is ASCII).  This is exactly core
`Char.toLower`: codepoints 65–90 are shifted up by 32. -/
def pyLowerChar (c : Char) : Char := c.toLower

/-- Python whitespace characters recognised by `str.strip()`:
space, tab, newline, carriage return, vertical tab, form feed. -/
def isSpaceB (c : Char) : Bool :=
  c.toNat = 32 || c.toNat = 9 || c.toNat = 10 || c.toNat = 13 ||
  c.toNat = 11 || c.toNat = 12

/-- Python `str.lower`. -/
def pyLower (s : String) : String := ⟨s.data.map pyLowerChar⟩

/-- Python `str.strip()` — drop whitespace from both ends. -/
def pyStrip (s : String) : String :=
  ⟨(s.data.dropWhile isSpaceB).rdropWhile isSpaceB⟩

/-- Python `needle in hay` on strings (contiguous substring test). -/
def strContainsB (hay needle : String) : Bool :=
  decide (needle.data <:+: hay.data)

/-- Lexicographic comparison of character lists by codepoint — Python's
`<=` on strings, as used by `sorted`. -/
def lexLE : List Char → List Char → Bool
  | [], _ => true
  | _ :: _, [] => false
  | a :: as, b :: bs =>
      if a < b then true else if b < a then false else lexLE as bs

/-- Python `a <= b` on strings. -/
def pyLE (a b : String) : Bool := lexLE a.data b.data

/-- Lookup in a Python `dict` represented as the association list of the
assignments that built it: the last assignment to a key wins. -/
def dictFind? {α : Type} (m : List (String × α)) (k : String) : Option α :=
  m.foldl (fun acc p => if p.1 = k then some p.2 else acc) none

/-! ### `models.py` -/

/-- Model of `models.ContactInfo`. -/
structure ContactInfo where
  name : String
  email : String
  phone : String
  location : String
deriving DecidableEq

/-- Model of `models.Experience`. -/
structure Experience where
  title : String
  company : String
  description : String
  duration : String
  tools : List String
deriving DecidableEq

/-- Model of `models.Education`. -/
structure Education where
  institution : String
  degree : String
  graduation : String
deriving DecidableEq

/-- Model of `models.CandidateProfile`. -/
structure CandidateProfile where
  contact : ContactInfo
  summary : String
  skills : List String
  experiences : List Experience
  education : List Education
  certifications : List String
  achievements : List String
deriving DecidableEq

/-- Model of `CandidateProfile.normalized_skills`:
`sorted({skill.lower().strip() for skill in self.skills if skill.strip()})` —
the distinct lowered-trimmed non-blank skills in increasing lexicographic
order. -/
def CandidateProfile.normalized_skills (p : CandidateProfile) : List String :=
  List.insertionSort (fun a b => pyLE a b = true)
    (((p.skills.filter (fun s => decide (pyStrip s ≠ ""))).map
      (fun s => pyStrip (pyLower s))).dedup)

/-! ### `scoring.py` — synonym tables -/

/-- Model of `scoring.SKILL_SYNONYMS` (canonical term → aliases, all lowercase). -/
def SKILL_SYNONYMS : List (String × List String) := [
  ("javascript", ["js", "ecmascript", "es6", "es2015"]),
  ("typescript", ["ts"]),
  ("python", ["py", "python3", "cpython"]),
  ("kubernetes", ["k8s", "kube"]),
  ("machine learning", ["ml"]),
  ("deep learning", ["dl"]),
  ("natural language processing", ["nlp"]),
  ("artificial intelligence", ["ai"]),
  ("amazon web services", ["aws"]),
  ("google cloud platform", ["gcp", "google cloud"]),
  ("microsoft azure", ["azure"]),
  ("react", ["reactjs", "react.js"]),
  ("angular", ["angularjs", "angular.js"]),
  ("vue", ["vuejs", "vue.js"]),
  ("node", ["nodejs", "node.js"]),
  ("postgres", ["postgresql", "psql"]),
  ("mysql", ["mariadb"]),
  ("mongodb", ["mongo"]),
  ("docker", ["containerization"]),
  ("ci/cd", ["cicd", "continuous integration", "continuous deployment"]),
  ("tensorflow", ["tf"]),
  ("pytorch", ["torch"]),
  ("c++", ["cpp"]),
  ("c#", ["csharp", "c sharp"]),
  ("objective-c", ["objc"]),
  ("ruby on rails", ["rails", "ror"]),
  ("rest", ["restful", "rest api", "restful api"]),
  ("graphql", ["gql"]),
  ("html", ["html5"]),
  ("css", ["css3"]),
  ("sass", ["scss"])]

/-- Model of `scoring._SYNONYM_REVERSE`: alias → canonical, built by inserting
`canonical → canonical` and then each `alias → canonical` in table order. -/
def SYNONYM_REVERSE : List (String × String) :=
  SKILL_SYNONYMS.foldl
    (fun acc p => (acc ++ [(p.1, p.1)]) ++ p.2.map (fun a => (a, p.1))) []

/-- Model of `scoring._JD_STOPWORDS`. -/
def JD_STOPWORDS : List String := [
  "the", "and", "for", "with", "our", "you", "your", "are", "will",
  "have", "has", "this", "that", "from", "into", "not", "but", "also",
  "who", "can", "all", "been", "were", "being", "their", "its", "more",
  "about", "than", "them", "these", "those", "then", "when", "how",
  "what", "which", "where", "would", "should", "could", "may", "might",
  "must", "shall", "need", "want", "like", "just", "use", "using",
  "used", "work", "team", "role", "experience", "years", "ability",
  "strong", "knowledge", "understanding", "working", "looking",
  "seeking", "required", "preferred", "plus", "nice", "including",
  "etc", "such", "well", "good", "great", "excellent", "proficient"]

/-- Model of `scoring.canonicalize_skill`: lower-case and trim, then resolve
through the reverse synonym table, defaulting to the input itself. -/
def canonicalize_skill (skill : String) : String :=
  let lower := pyStrip (pyLower skill)
  (dictFind? SYNONYM_REVERSE lower).getD lower

/-! ### `scoring.py` — `MatchBreakdown` -/

/-- Python 3 `round` to the nearest integer, halves to even.  The floor is
computed as `num.fdiv den` (the denominator is positive). -/
def pyRound (q : ℚ) : ℤ :=
  let f : ℤ := q.num.fdiv q.den
  let r : ℚ := q - (f : ℚ)
  if r = 1/2 then (if Even f then f else f + 1)
  else if r < 1/2 then f else f + 1

/-- Python `round(q, 2)`. -/
def pyRound2 (q : ℚ) : ℚ := (pyRound (q * 100) : ℚ) / 100

/-- Model of `scoring.MatchBreakdown` — exactly the three stored component fields;
`overall_score` is the derived property below, not a field. -/
structure MatchBreakdown where
  required_coverage : ℚ
  optional_coverage : ℚ
  experience_alignment : ℚ
deriving DecidableEq

/-- Model of `MatchBreakdown.overall_score` (a `@property`, recomputed on demand):
`round(required*0.6 + optional*0.2 + experience*0.2, 2)`. -/
def MatchBreakdown.overall_score (b : MatchBreakdown) : ℚ :=
  pyRound2 (b.required_coverage * 0.6 + b.optional_coverage * 0.2 +
    b.experience_alignment * 0.2)

/-! ### `scoring.py` — `JobMatchScorer` -/

/-- Model of `JobMatchScorer._normalize`: lower-case, trim and deduplicate a skill
list into a set, dropping blank entries; `None` and `[]` give the empty set. -/
def normalizeSkillList : Option (List String) → Finset String
  | none => ∅
  | some items =>
      ((items.filter (fun s => decide (pyStrip s ≠ ""))).map
        (fun s => pyStrip (pyLower s))).toFinset

/-- Characters matched by the token regex `[A-Za-z+#./]+` of
`JobMatchScorer._extract_skills`. -/
def isTokChar (c : Char) : Bool :=
  c.isAlpha || c = '+' || c = '#' || c = '.' || c = '/'

/-- Scanning loop for `re.findall(r"[A-Za-z+#./]+", text)`: accumulate the
current run (reversed) and emit it when it ends. -/
def tokenRunsAux : List Char → List Char → List (List Char)
  | [], acc => if acc = [] then [] else [acc.reverse]
  | c :: rest, acc =>
      if isTokChar c then tokenRunsAux rest (c :: acc)
      else if acc = [] then tokenRunsAux rest []
      else acc.reverse :: tokenRunsAux rest []

/-- Model of `re.findall(r"[A-Za-z+#./]+", text)`: the maximal runs of token
characters, in order. -/
def tokenRuns (cs : List Char) : List (List Char) := tokenRunsAux cs []

/-- Python `token.strip(".")` — remove dots from both ends. -/
def stripDots (l : List Char) : List Char :=
  (l.dropWhile (fun c => c = '.')).rdropWhile (fun c => c = '.')

/-- Model of `JobMatchScorer._extract_skills`: tokenize the job description,
lower-case each token, strip surrounding dots, drop one-character tokens
and stopwords, and collect the rest as a set. -/
def extract_skills (text : String) : Finset String :=
  (((tokenRuns text.data).map
      (fun tok => (⟨stripDots (tok.map pyLowerChar)⟩ : String))).filter
    (fun lower => !(decide (lower.data.length ≤ 1) || decide (lower ∈ JD_STOPWORDS)))).toFinset

/-- Model of `scoring.JobMatchScorer` — the state set up by `__init__`. -/
structure JobMatchScorer where
  job_description : String
  required_skills : Finset String
  optional_skills : Finset String
deriving DecidableEq

/-- Model of `JobMatchScorer.__init__`: explicit required skills are normalized when
the sequence is truthy (neither `None` nor empty), otherwise skills are
auto-extracted from the job description; optional skills are only ever
normalized from the explicit argument. -/
def mkJobMatchScorer (job_description : String)
    (required_skills optional_skills : Option (List String)) : JobMatchScorer :=
  { job_description := job_description
    required_skills :=
      match required_skills with
      | some l =>
          if l ≠ [] then normalizeSkillList (some l)
          else extract_skills job_description
      | none => extract_skills job_description
    optional_skills := normalizeSkillList optional_skills }

/-- The lower-cased `" ".join([exp.title, exp.company, exp.description])`
searched by `_score_experience`. -/
def combinedText (exp : Experience) : String :=
  pyLower (exp.title ++ " " ++ exp.company ++ " " ++ exp.description)

/-- The match test inside `JobMatchScorer._score_experience` for one
canonical target skill against one experience entry: the skill itself, any
of its aliases from the synonym table, or any raw required skill that
canonicalizes to it, occurring as a substring of the combined text. -/
def skillMatchesExp (scorer : JobMatchScorer) (skill : String)
    (exp : Experience) : Bool :=
  let text := combinedText exp
  strContainsB text skill ||
  ((dictFind? SKILL_SYNONYMS skill).getD []).any (fun a => strContainsB text a) ||
  decide (∃ s ∈ scorer.required_skills,
    canonicalize_skill s = skill ∧ strContainsB text s = true)

/-- A target skill is found when it matches in at least one experience
entry (pooled across all entries). -/
def skillFound (scorer : JobMatchScorer) (experiences : List Experience)
    (skill : String) : Bool :=
  experiences.any (fun exp => skillMatchesExp scorer skill exp)

/-- Model of `JobMatchScorer._score_experience`: 0 when there are no experiences or
no target skills, else the fraction of target skills found. -/
def JobMatchScorer.score_experience (scorer : JobMatchScorer)
    (profile : CandidateProfile) (target_skills : Finset String) : ℚ :=
  if profile.experiences = [] ∨ target_skills = ∅ then 0
  else ((target_skills.filter
      (fun skill => skillFound scorer profile.experiences skill = true)).card : ℚ) /
    (target_skills.card : ℚ)

/-- Model of `JobMatchScorer.score`. -/
def JobMatchScorer.score (scorer : JobMatchScorer)
    (profile : CandidateProfile) : MatchBreakdown :=
  let candidate_skills := ((profile.normalized_skills).map canonicalize_skill).toFinset
  let required_canonical := scorer.required_skills.image canonicalize_skill
  let optional_canonical := scorer.optional_skills.image canonicalize_skill
  let required_hits := candidate_skills ∩ required_canonical
  let optional_hits := candidate_skills ∩ optional_canonical
  let required_coverage : ℚ :=
    if required_canonical ≠ ∅ then
      (required_hits.card : ℚ) / (required_canonical.card : ℚ) else 0
  let optional_coverage : ℚ :=
    if optional_canonical ≠ ∅ then
      (optional_hits.card : ℚ) / (optional_canonical.card : ℚ) else 0
  let experience_alignment := scorer.score_experience profile required_canonical
  { required_coverage := pyRound2 (required_coverage * 100)
    optional_coverage := pyRound2 (optional_coverage * 100)
    experience_alignment := pyRound2 (experience_alignment * 100) }

/-- Model of `JobMatchScorer.missing_required`: canonical required set minus the
canonical candidate skill set. -/
def JobMatchScorer.missing_required (scorer : JobMatchScorer)
    (profile : CandidateProfile) : Finset String :=
  let candidate_skills := ((profile.normalized_skills).map canonicalize_skill).toFinset
  let required_canonical := scorer.required_skills.image canonicalize_skill
  required_canonical \ candidate_skills

/-- Model of `JobMatchScorer.missing_optional`. -/
def JobMatchScorer.missing_optional (scorer : JobMatchScorer)
    (profile : CandidateProfile) : Finset String :=
  let candidate_skills := ((profile.normalized_skills).map canonicalize_skill).toFinset
  let optional_canonical := scorer.optional_skills.image canonicalize_skill
  optional_canonical \ candidate_skills

/-! ### A small regular-expression engine (Brzozowski derivatives), used to
model the three `re` patterns of `parser.py`. -/

/-- Regular expressions over predicates on characters. -/
inductive RE where
  | eps : RE
  | cls : (Char → Bool) → RE
  | cat : RE → RE → RE
  | alt : RE → RE → RE
  | star : RE → RE

/-- The empty (never-matching) regex. -/
def RE.emp : RE := .cls (fun _ => false)

/-- Does the regex accept the empty string? -/
def RE.nullable : RE → Bool
  | .eps => true
  | .cls _ => false
  | .cat a b => a.nullable && b.nullable
  | .alt a b => a.nullable || b.nullable
  | .star _ => true

/-- Brzozowski derivative with respect to one character. -/
def RE.deriv : RE → Char → RE
  | .eps, _ => .emp
  | .cls p, c => if p c then .eps else .emp
  | .cat a b, c =>
      if a.nullable then .alt (.cat (a.deriv c) b) (b.deriv c)
      else .cat (a.deriv c) b
  | .alt a b, c => .alt (a.deriv c) (b.deriv c)
  | .star r, c => .cat (r.deriv c) (.star r)

/-- Whole-list match. -/
def RE.matchB (r : RE) (cs : List Char) : Bool :=
  (cs.foldl RE.deriv r).nullable

/-- Does some prefix of `cs` match `r`? -/
def RE.matchesSomePrefixOf : RE → List Char → Bool
  | r, [] => r.nullable
  | r, c :: cs => r.nullable || (r.deriv c).matchesSomePrefixOf cs

/-- Model of `re.search` truthiness: does some substring match? -/
def RE.searchB (r : RE) (s : String) : Bool :=
  s.data.tails.any (fun t => r.matchesSomePrefixOf t)

/-- Length of the longest matching prefix, if any. -/
def RE.longestPrefixLen? : RE → List Char → Option Nat
  | r, [] => if r.nullable then some 0 else none
  | r, c :: cs =>
      match (r.deriv c).longestPrefixLen? cs with
      | some n => some (n + 1)
      | none => if r.nullable then some 0 else none

/-- Leftmost match (taking the longest extent at the leftmost viable start),
as returned by `re.search(...).group(0)`. -/
def RE.firstMatchAux : RE → List Char → Option (List Char)
  | r, [] => if r.nullable then some [] else none
  | r, c :: rest =>
      match r.longestPrefixLen? (c :: rest) with
      | some n => some ((c :: rest).take n)
      | none => r.firstMatchAux rest

/-- The text of the first match of `r` in `s`, if any. -/
def RE.search1? (r : RE) (s : String) : Option String :=
  (r.firstMatchAux s.data).map (fun l => (⟨l⟩ : String))

/-- Model of `r+` (one or more). -/
def RE.rplus (r : RE) : RE := .cat r (.star r)

/-- Model of `r?` (zero or one). -/
def RE.opt (r : RE) : RE := .alt r .eps

/-- Model of `r{n}` (exactly `n` copies). -/
def RE.rep : Nat → RE → RE
  | 0, _ => .eps
  | n + 1, r => .cat r (RE.rep n r)

/-- A single-character regex. -/
def RE.chr (c : Char) : RE := .cls (fun d => d = c)

/-! ### `parser.py` — lines and section detection -/

/-- Python `str.splitlines` (on the newline forms `\n`, `\r\n`, `\r`; the
résumé corpus is plain `\n`-separated text). -/
def splitlinesAux : List Char → List Char → List (List Char)
  | [], acc => if acc = [] then [] else [acc.reverse]
  | '\r' :: '\n' :: rest, acc => acc.reverse :: splitlinesAux rest []
  | '\n' :: rest, acc => acc.reverse :: splitlinesAux rest []
  | '\r' :: rest, acc => acc.reverse :: splitlinesAux rest []
  | c :: rest, acc => splitlinesAux rest (c :: acc)

/-- Python `text.splitlines()`. -/
def pySplitlines (s : String) : List String :=
  (splitlinesAux s.data []).map (fun l => (⟨l⟩ : String))

/-- Model of `ResumeParser.__init__`: the non-blank trimmed lines of the text. -/
def parseLines (text : String) : List String :=
  ((pySplitlines text).map pyStrip).filter (fun l => decide (l ≠ ""))

/-- Model of `parser.SECTION_ALIASES`. -/
def SECTION_ALIASES : List (String × List String) := [
  ("skills", ["skills", "technologies", "technical skills", "core competencies",
    "tech stack"]),
  ("experience", ["experience", "work experience", "professional experience",
    "work history", "professional background", "employment history", "employment"]),
  ("education", ["education", "academic background", "qualifications"]),
  ("summary", ["summary", "objective", "profile", "about me", "professional summary"]),
  ("achievements", ["achievements", "accomplishments", "awards", "honors"]),
  ("certifications", ["certifications", "certificates", "licenses", "credentials"])]

/-- Model of `parser._ALIAS_LOOKUP`: lowered alias → canonical section name. -/
def ALIAS_LOOKUP : List (String × String) :=
  SECTION_ALIASES.foldl (fun acc p => acc ++ p.2.map (fun a => (a, p.1))) []

/-- Model of `parser.ROLE_KEYWORDS`. -/
def ROLE_KEYWORDS : List String := [
  "engineer", "manager", "developer", "intern", "analyst", "designer",
  "architect", "consultant", "director", "lead", "scientist", "administrator",
  "coordinator", "specialist", "technician", "officer", "associate",
  "vice president", "vp", "head of", "founder", "co-founder",
  "cto", "ceo", "coo", "cfo"]

/-- Model of `parser._NON_NAME_PATTERNS`. -/
def NON_NAME_PATTERNS : List String :=
  ["resume", "curriculum vitae", "cv", "cover letter", "portfolio"]

/-- Python `s.rstrip(":")`. -/
def rstripColon (s : String) : String :=
  ⟨s.data.rdropWhile (fun c => c = ':')⟩

/-- Model of `ResumeParser._classify_line`: canonical section name of a header-looking
line — an exact alias match after lower-casing, colon-stripping and trimming,
or an alias prefix followed by end, colon, space or tab. -/
def classify_line (line : String) : Option String :=
  let lower := pyStrip (rstripColon (pyLower line))
  match dictFind? ALIAS_LOOKUP lower with
  | some c => some c
  | none =>
      ALIAS_LOOKUP.findSome? (fun p =>
        let rem := lower.data.drop p.1.data.length
        if decide (p.1.data <+: lower.data) &&
            (decide (rem = []) || decide (rem.head? = some ':') ||
             decide (rem.head? = some ' ') || decide (rem.head? = some '\t'))
        then some p.2 else none)

/-- The `(canonical, index)` header hits of `_build_section_map`, in scan order. -/
def sectionHits (lines : List String) : List (String × Nat) :=
  lines.enum.filterMap (fun p => (classify_line p.2).map (fun c => (c, p.1)))

/-- Attach to every hit its end index: the next hit's index, or the total
number of lines for the final hit. -/
def attachEnds (total : Nat) : List (String × Nat) → List (String × Nat × Nat)
  | [] => []
  | (name, start) :: rest =>
      (name, start, match rest with | [] => total | (_, s2) :: _ => s2) ::
        attachEnds total rest

/-- Model of `ResumeParser._section_map` as the sequence of dict assignments it makes. -/
def section_map (lines : List String) : List (String × Nat × Nat) :=
  attachEnds lines.length (sectionHits lines)

/-- Model of `self._section_map[name]` (last assignment wins) with membership test. -/
def sectionRange? (lines : List String) (name : String) : Option (Nat × Nat) :=
  dictFind? (section_map lines) name

/-- Model of `ResumeParser._section_lines`: the body `lines[start+1:end]` of a named
section, or `[]` when the section is absent. -/
def section_lines (lines : List String) (name : String) : List String :=
  match sectionRange? lines name with
  | none => []
  | some (start, e) => (lines.take e).drop (start + 1)

/-! ### `parser.py` — contact extraction -/

/-- Model of `ResumeParser.EMAIL_RE`: `[A-Za-z0-9._%+-]+@[A-Za-z0-9.-]+\.[A-Za-z]{2,}`. -/
def EMAIL_RE : RE :=
  .cat (RE.rplus (.cls (fun c => c.isAlpha || c.isDigit || c = '.' || c = '_' ||
      c = '%' || c = '+' || c = '-')))
    (.cat (RE.chr '@')
      (.cat (RE.rplus (.cls (fun c => c.isAlpha || c.isDigit || c = '.' || c = '-')))
        (.cat (RE.chr '.')
          (.cat (.cls Char.isAlpha) (RE.rplus (.cls Char.isAlpha))))))

/-- Model of `ResumeParser.PHONE_RE`: `(\+?\d[\d\s().-]{7,}\d)`. -/
def PHONE_RE : RE :=
  .cat (RE.opt (RE.chr '+'))
    (.cat (.cls Char.isDigit)
      (.cat (RE.rep 7 (.cls (fun c => c.isDigit || isSpaceB c || c = '(' ||
          c = ')' || c = '.' || c = '-')))
        (.cat (.star (.cls (fun c => c.isDigit || isSpaceB c || c = '(' ||
            c = ')' || c = '.' || c = '-')))
          (.cls Char.isDigit))))

/-- The inline pattern `[A-Za-z]{2,}\s+[A-Za-z]{2,}` of `_extract_name`
(a two-word alphabetic run). -/
def TWOWORD_RE : RE :=
  .cat (.cls Char.isAlpha)
    (.cat (RE.rplus (.cls Char.isAlpha))
      (.cat (RE.rplus (.cls isSpaceB))
        (.cat (.cls Char.isAlpha) (RE.rplus (.cls Char.isAlpha)))))

/-- Model of `ResumeParser._search_regex`: the first regex match within the first
five lines, else the empty string. -/
def search_regex (lines : List String) (r : RE) : String :=
  ((lines.take 5).findSome? (fun line => r.search1? line)).getD ""

/-- Model of `ResumeParser._extract_name`'s per-line survival test. -/
def nameLineOk (line : String) : Bool :=
  let lower := pyStrip (pyLower line)
  !(NON_NAME_PATTERNS.any (fun pat => decide (pat.data <+: lower.data))) &&
  (classify_line line).isNone &&
  !(EMAIL_RE.searchB line && !TWOWORD_RE.searchB line) &&
  !(PHONE_RE.searchB line && !TWOWORD_RE.searchB line)

/-- Model of `ResumeParser._extract_name`: first of the first five lines surviving the
non-name filters, else the document's first line, else the empty string. -/
def extract_name (lines : List String) : String :=
  match (lines.take 5).find? nameLineOk with
  | some line => line
  | none => lines.head?.getD ""

/-- The location gazetteer of `ResumeParser._extract_location`. -/
def LOCATION_KEYWORDS : List String := [
  "remote", "usa", "uk", "canada", "india", "germany", "france", "australia",
  "singapore", "japan", "china", "brazil", "netherlands", "sweden", "new york",
  "san francisco", "london", "berlin", "toronto", "seattle", "chicago",
  "boston", "los angeles", "austin", "denver", "bangalore", "mumbai",
  "hyderabad"]

/-- Model of `ResumeParser._extract_location`. -/
def extract_location (lines : List String) : String :=
  ((lines.take 5).find? (fun line =>
    LOCATION_KEYWORDS.any (fun kw => strContainsB (pyLower line) kw))).getD ""

/-- Model of `ResumeParser._extract_contact`. -/
def extract_contact (lines : List String) : ContactInfo :=
  { email := search_regex lines EMAIL_RE
    phone := search_regex lines PHONE_RE
    name := extract_name lines
    location := extract_location lines }

/-! ### `parser.py` — list splitting and skills -/

/-- The separators of `ResumeParser._split_list`. -/
def isSepChar (c : Char) : Bool :=
  c = ',' || c = '|' || c = '/' || c = '•' || c = '‣' || c = '-'

/-- Model of `re.split` on the separator characters. -/
def splitChunks : List Char → List Char → List (List Char)
  | [], acc => [acc.reverse]
  | c :: rest, acc =>
      if isSepChar c then acc.reverse :: splitChunks rest []
      else splitChunks rest (c :: acc)

/-- Model of `ResumeParser._split_list`: split on separators, trim chunks, drop blanks. -/
def split_list (text : String) : List String :=
  ((splitChunks text.data []).map (fun chunk => pyStrip ⟨chunk⟩)).filter
    (fun s => decide (s ≠ ""))

/-- Python `s.split(":", 1)[-1]` for a string known to contain a colon. -/
def afterFirstColon (s : String) : String :=
  ⟨(s.data.dropWhile (fun c => c ≠ ':')).drop 1⟩

/-- The loop of `ResumeParser._extract_skills_legacy`. -/
def extract_skills_legacy_aux : List String → Bool → List String
  | [], _ => []
  | line :: rest, capture =>
      let lower := pyLower line
      if decide ("skills".data <+: lower.data) ||
          decide ("technologies".data <+: lower.data) then
        let line2 := if strContainsB line ":" then afterFirstColon line else ""
        split_list line2 ++ extract_skills_legacy_aux rest true
      else if capture && decide (line = "") then []
      else if capture then split_list line ++ extract_skills_legacy_aux rest capture
      else extract_skills_legacy_aux rest capture

/-- Model of `ResumeParser._extract_skills_legacy`. -/
def extract_skills_legacy (lines : List String) : List String :=
  (extract_skills_legacy_aux lines false).filter (fun s => decide (s ≠ ""))

/-- Model of `ResumeParser._extract_skills`: section body lines split and flattened;
else the inline `Skills: ...` header remainder; else the legacy fallback. -/
def parserExtractSkills (lines : List String) : List String :=
  let body := section_lines lines "skills"
  if body ≠ [] then
    ((body.map split_list).flatten).filter (fun s => decide (s ≠ ""))
  else
    match sectionRange? lines "skills" with
    | some r =>
        let header_line := (lines.get? r.1).getD ""
        let after_colon :=
          if strContainsB header_line ":" then afterFirstColon header_line else ""
        if pyStrip after_colon ≠ "" then
          (split_list after_colon).filter (fun s => decide (s ≠ ""))
        else extract_skills_legacy lines
    | none => extract_skills_legacy lines

/-! ### `parser.py` — summary -/

/-- First occurrences of each element, later duplicates removed
(Python `dict.fromkeys` / first-insertion key order), with an accumulator of
already-seen elements. -/
def dedupFirstAux : List String → List String → List String
  | [], _ => []
  | x :: xs, seen =>
      if decide (x ∈ seen) then dedupFirstAux xs seen
      else x :: dedupFirstAux xs (x :: seen)

/-- Python `dict.fromkeys(l)`: keep the first occurrence of each element. -/
def dedupFirst (l : List String) : List String := dedupFirstAux l []

/-- The surviving values of a Python dict built from the given assignments. -/
def dictValues {α : Type} (m : List (String × α)) : List α :=
  (dedupFirst (m.map (fun p => p.1))).filterMap (fun k => dictFind? m k)

/-- Model of `min((start for start, _ in self._section_map.values()), default=len(lines))`. -/
def minSectionStart (lines : List String) : Nat :=
  match (dictValues (section_map lines)).map (fun p => p.1) with
  | [] => lines.length
  | x :: xs => xs.foldl Nat.min x

/-- The fallback collection loop of `_extract_summary` (up to 3 lines that are
neither headers nor contact lines). -/
def summaryFallback : List String → List String → List String
  | [], acc => acc.reverse
  | line :: rest, acc =>
      if (classify_line line).isSome then summaryFallback rest acc
      else if EMAIL_RE.searchB line || PHONE_RE.searchB line then
        summaryFallback rest acc
      else if acc.length + 1 ≥ 3 then (line :: acc).reverse
      else summaryFallback rest (line :: acc)

/-- Model of `ResumeParser._extract_summary`. -/
def extract_summary (lines : List String) : String :=
  let body := section_lines lines "summary"
  if body ≠ [] then " ".intercalate (body.take 5)
  else " ".intercalate (summaryFallback (lines.take (minSectionStart lines)) [])

/-! ### `parser.py` — experience -/

/-- Model of `ResumeParser._is_role_title`. -/
def is_role_title (lower_line : String) : Bool :=
  ROLE_KEYWORDS.any (fun kw => strContainsB lower_line kw)

/-- Word characters for the regex `\b` boundary (`[A-Za-z0-9_]`). -/
def isWordChar (c : Char) : Bool := c.isAlpha || c.isDigit || c = '_'

/-- The character class `[A-Za-z+#.]` of the tool-token pattern. -/
def isToolChar (c : Char) : Bool := c.isAlpha || c = '+' || c = '#' || c = '.'

/-- Is there a `\b` word boundary after the first `l` characters of `cs`? -/
def boundaryAfter (cs : List Char) (l : Nat) : Bool :=
  match cs.get? (l - 1), cs.get? l with
  | some a, some b => isWordChar a != isWordChar b
  | some a, none => isWordChar a
  | none, _ => false

/-- Longest extent of a tool token starting at the head of `cs`
(an uppercase letter followed by `[A-Za-z+#.]*`) that ends on a `\b`
boundary — the extent Python's backtracking settles on for
`\b[A-Z][A-Za-z+#.]*(?:\.[A-Za-z]+)*\b`. -/
def toolExtent? (cs : List Char) : Option Nat :=
  let maxLen := 1 + ((cs.drop 1).takeWhile isToolChar).length
  (List.range maxLen).reverse.findSome? (fun i =>
    if boundaryAfter cs (i + 1) then some (i + 1) else none)

/-- The `re.findall` scan for tool tokens (with fuel bounded by the text
length — every step consumes at least one character): leftmost
non-overlapping matches, tracking whether the previous character was a word
character (for the leading `\b`). -/
def toolScanFuel : Nat → List Char → Bool → List (List Char)
  | 0, _, _ => []
  | _ + 1, [], _ => []
  | fuel + 1, c :: rest, prevWord =>
      if c.isUpper && !prevWord then
        match toolExtent? (c :: rest) with
        | some l =>
            let tok := (c :: rest).take (max l 1)
            tok :: toolScanFuel fuel ((c :: rest).drop (max l 1))
              (isWordChar (tok.getLast?.getD c))
        | none => toolScanFuel fuel rest (isWordChar c)
      else toolScanFuel fuel rest (isWordChar c)

/-- The full tool-token scan over a text. -/
def toolScan (cs : List Char) (prevWord : Bool) : List (List Char) :=
  toolScanFuel cs.length cs prevWord

/-- The capitalized-verb stopwords of `_extract_tools_from_text`. -/
def TOOL_STOPWORDS : List String := [
  "Built", "Developed", "Created", "Managed", "Led", "Designed", "Implemented",
  "Deployed", "Worked", "Collaborated", "Improved", "Reduced", "Increased",
  "The", "This", "That", "Using", "With", "And", "For", "From", "Into"]

/-- Model of `ResumeParser._extract_tools_from_text`. -/
def extract_tools_from_text (text : String) : List String :=
  dedupFirst (((toolScan text.data false).map (fun t => (⟨t⟩ : String))).filter
    (fun t => decide (t ∉ TOOL_STOPWORDS)))

/-- Model of `ResumeParser._experience_from_lines`. -/
def experience_from_lines (ls : List String) : Experience :=
  let description := " ".intercalate (ls.drop 2)
  { title := ls.head?.getD ""
    company := (ls.get? 1).getD ""
    description := description
    duration := ""
    tools := extract_tools_from_text description }

/-- The buffering loop of `ResumeParser._extract_experience`: a role-title
line closes the current buffer and starts a new entry. -/
def experienceLoop : List String → List String → List Experience
  | [], buffer => if buffer ≠ [] then [experience_from_lines buffer] else []
  | line :: rest, buffer =>
      if is_role_title (pyLower line) then
        (if buffer ≠ [] then [experience_from_lines buffer] else []) ++
          experienceLoop rest [line]
      else experienceLoop rest (buffer ++ [line])

/-- Model of `ResumeParser._extract_experience`. -/
def extract_experience (lines : List String) : List Experience :=
  let body := section_lines lines "experience"
  if body = [] then [] else experienceLoop body []

/-! ### `parser.py` — education -/

/-- The degree keywords of `_looks_like_degree`. -/
def DEGREE_KEYWORDS : List String :=
  ["bachelor", "master", "phd", "ph.d", "mba", "b.s", "m.s", "b.a", "m.a",
   "associate", "diploma"]

/-- Model of `ResumeParser._looks_like_degree`. -/
def looks_like_degree (line : String) : Bool :=
  DEGREE_KEYWORDS.any (fun kw => strContainsB (pyLower line) kw)

/-- One candidate position for `\b(19|20)\d{2}\b`. -/
def yearAt (cs : List Char) (prevWord : Bool) : Bool :=
  match cs with
  | c1 :: c2 :: c3 :: c4 :: rest =>
      !prevWord &&
      ((decide (c1 = '1') && decide (c2 = '9')) ||
       (decide (c1 = '2') && decide (c2 = '0'))) &&
      c3.isDigit && c4.isDigit &&
      (match rest.head? with | some b => !isWordChar b | none => true)
  | _ => false

/-- Model of `re.search(r"\b(19|20)\d{2}\b", ...)` truthiness. -/
def yearSearch : List Char → Bool → Bool
  | [], _ => false
  | c :: rest, prevWord => yearAt (c :: rest) prevWord || yearSearch rest (isWordChar c)

/-- Model of `ResumeParser._looks_like_year`. -/
def looks_like_year (line : String) : Bool := yearSearch line.data false

/-- The cursor walk of `ResumeParser._extract_education`. -/
def educationLoop : List String → List Education
  | [] => []
  | [inst] => [⟨inst, "", ""⟩]
  | inst :: next :: rest2 =>
      if looks_like_degree next then
        match rest2 with
        | y :: rest3 =>
            if looks_like_year y then ⟨inst, next, y⟩ :: educationLoop rest3
            else ⟨inst, next, ""⟩ :: educationLoop (y :: rest3)
        | [] => [⟨inst, next, ""⟩]
      else if looks_like_year next then ⟨inst, "", next⟩ :: educationLoop rest2
      else ⟨inst, "", ""⟩ :: educationLoop (next :: rest2)

/-- Model of `ResumeParser._extract_education`. -/
def extract_education (lines : List String) : List Education :=
  let body := section_lines lines "education"
  if body = [] then [] else educationLoop body

/-- Model of `ResumeParser._extract_section_items`. -/
def extract_section_items (lines : List String) (name : String) : List String :=
  (((section_lines lines name).map split_list).flatten).filter
    (fun s => decide (s ≠ ""))

/-- Model of `ResumeParser(...).parse()` — the full pipeline from raw text to profile. -/
def ResumeParser.parse (text : String) : CandidateProfile :=
  let lines := parseLines text
  { contact := extract_contact lines
    summary := extract_summary lines
    skills := parserExtractSkills lines
    experiences := extract_experience lines
    education := extract_education lines
    certifications := extract_section_items lines "certifications"
    achievements := extract_section_items lines "achievements" }

/-! ## Helper lemmas -/

attribute [local semireducible] Rat.mul Rat.add Rat.sub Rat.inv Rat.ofScientific

theorem dictFind?_fold {α : Type} (m : List (String × α)) (acc : Option α)
    (k : String) :
    m.foldl (fun acc p => if p.1 = k then some p.2 else acc) acc =
      match dictFind? m k with | some v => some v | none => acc := by
  induction m generalizing acc with
  | nil => simp [dictFind?]
  | cons p m ih =>
      have h2 : dictFind? (p :: m) k =
          match dictFind? m k with
          | some v => some v
          | none => if p.1 = k then some p.2 else none := by
        show m.foldl _ (if p.1 = k then some p.2 else none) = _
        rw [ih]
      rw [List.foldl_cons, ih, h2]
      cases dictFind? m k <;> by_cases h : p.1 = k <;> simp [h]

theorem dictFind?_cons {α : Type} (p : String × α) (m : List (String × α))
    (k : String) :
    dictFind? (p :: m) k =
      match dictFind? m k with
      | some v => some v
      | none => if p.1 = k then some p.2 else none := by
  simp only [dictFind?, List.foldl_cons]
  exact dictFind?_fold m _ k

theorem dictFind?_mem {α : Type} {m : List (String × α)} {k : String} {v : α}
    (h : dictFind? m k = some v) : (k, v) ∈ m := by
  induction m with
  | nil => simp [dictFind?] at h
  | cons p m ih =>
      rw [dictFind?_cons] at h
      obtain ⟨a, b⟩ := p
      cases hm : dictFind? m k with
      | some w => rw [hm] at h; exact List.mem_cons_of_mem _ (ih (hm.trans h))
      | none =>
          rw [hm] at h
          by_cases hk : a = k
          · subst hk
            simp only [if_pos rfl] at h
            cases h
            exact List.mem_cons_self _ _
          · simp [hk] at h

/-- A successful dict lookup returns the value of the LAST assignment to the
key: the list decomposes with no later assignment to `k`. -/
theorem dictFind?_last {α : Type} {m : List (String × α)} {k : String} {v : α}
    (h : dictFind? m k = some v) :
    ∃ m₁ m₂, m = m₁ ++ (k, v) :: m₂ ∧ ∀ p ∈ m₂, p.1 ≠ k := by
  induction m with
  | nil => simp [dictFind?] at h
  | cons p m ih =>
      rw [dictFind?_cons] at h
      obtain ⟨a, b⟩ := p
      cases hm : dictFind? m k with
      | some w =>
          rw [hm] at h
          obtain ⟨m₁, m₂, hsplit, hnone⟩ := ih (hm.trans h)
          exact ⟨(a, b) :: m₁, m₂, by simp [hsplit], hnone⟩
      | none =>
          rw [hm] at h
          by_cases hk : a = k
          · subst hk
            simp only [if_pos rfl] at h
            cases h
            refine ⟨[], m, by simp, ?_⟩
            intro q hq hqk
            obtain ⟨m₁, m₂, hsplit⟩ := List.append_of_mem hq
            rw [hsplit] at hm
            simp only [dictFind?, List.foldl_append, List.foldl_cons, hqk,
              if_pos rfl] at hm
            rw [dictFind?_fold] at hm
            revert hm
            cases dictFind? m₂ a <;> simp
          · simp [hk] at h

theorem pyRound2_zero : pyRound2 0 = 0 := by decide

theorem pyRound2_hundred : pyRound2 100 = 100 := by decide

/-! ## Claim theorems -/

/-- C1: `MatchBreakdown.overall_score` is always derived from the three
stored components by `round(required*0.6 + optional*0.2 + experience*0.2, 2)`
(the structure stores nothing else), and evaluates to 100, 50 and 0 on the
component triples (100,100,100), (50,50,50) and (0,0,0). -/
theorem overall_score_spec :
    (∀ r o e : ℚ, (MatchBreakdown.mk r o e).overall_score =
      pyRound2 (r * 0.6 + o * 0.2 + e * 0.2)) ∧
    (MatchBreakdown.mk 100 100 100).overall_score = 100 ∧
    (MatchBreakdown.mk 50 50 50).overall_score = 50 ∧
    (MatchBreakdown.mk 0 0 0).overall_score = 0 :=
  ⟨fun _ _ _ => rfl, by decide, by decide, by decide⟩

/-- C4: `canonicalize_skill` lower-cases and trims, then resolves through the
reverse synonym table: canonical terms are fixed points, known aliases map to
their canonical term (`"JS"` and `"js"` both give `"javascript"`), and inputs
whose lowered-trimmed form is outside the table pass through as that
lowered-trimmed form. -/
theorem canonicalize_skill_spec :
    (∀ p ∈ SKILL_SYNONYMS, canonicalize_skill p.1 = p.1) ∧
    (∀ p ∈ SKILL_SYNONYMS, ∀ a ∈ p.2, canonicalize_skill a = p.1) ∧
    canonicalize_skill "JS" = "javascript" ∧
    canonicalize_skill "js" = "javascript" ∧
    (∀ s : String, dictFind? SYNONYM_REVERSE (pyStrip (pyLower s)) = none →
      canonicalize_skill s = pyStrip (pyLower s)) := by
  refine ⟨by decide, by decide, by decide, by decide, fun s h => ?_⟩
  simp only [canonicalize_skill, h, Option.getD_none]

/-- Witness for C4's pass-through clause at the unknown input `" Rust "`. -/
theorem canonicalize_skill_spec_witness :
    dictFind? SYNONYM_REVERSE (pyStrip (pyLower " Rust ")) = none ∧
    canonicalize_skill " Rust " = pyStrip (pyLower " Rust ") ∧
    pyStrip (pyLower " Rust ") = "rust" :=
  ⟨by decide, canonicalize_skill_spec.2.2.2.2 " Rust " (by decide), by decide⟩

/-- C9: passing an explicitly empty required-skills list behaves identically
to passing none at all — the constructor's truthiness test routes both to
auto-extraction from the job description, so the empty list does not produce
an empty required set whenever extraction finds skills. -/
theorem scorer_empty_required_list_spec :
    (∀ (jd : String) (opt : Option (List String)),
      mkJobMatchScorer jd (some []) opt = mkJobMatchScorer jd none opt) ∧
    (∀ (jd : String) (opt : Option (List String)),
      (mkJobMatchScorer jd (some []) opt).required_skills = extract_skills jd) ∧
    (mkJobMatchScorer "Senior Python developer" (some []) none).required_skills ≠ ∅ :=
  ⟨fun _ _ => rfl, fun _ _ => rfl, by decide⟩

/-- Counterexample to C9's final clause: an explicit empty required set CAN
be expressed through the required-skills parameter — a non-empty sequence of
blank-only strings is truthy, so it is normalized (not auto-extracted), and
normalization drops blanks, leaving the empty set even though extraction
from the job description would have found skills. -/
theorem blank_required_list_counterexample :
    (mkJobMatchScorer "Senior Python developer" (some [" "]) none).required_skills = ∅ ∧
    extract_skills "Senior Python developer" ≠ ∅ := by
  exact ⟨by decide, by decide⟩

/-- C10: optional skills are never auto-extracted: with no explicit optional
list the optional set is empty, optional coverage is 0 for every profile, and
`missing_optional` is empty for every profile. -/
theorem optional_skills_never_extracted :
    ∀ (jd : String) (req : Option (List String)) (profile : CandidateProfile),
      (mkJobMatchScorer jd req none).optional_skills = ∅ ∧
      ((mkJobMatchScorer jd req none).score profile).optional_coverage = 0 ∧
      (mkJobMatchScorer jd req none).missing_optional profile = ∅ := by
  intro jd req profile
  have hopt : (mkJobMatchScorer jd req none).optional_skills = ∅ := rfl
  refine ⟨hopt, ?_, ?_⟩
  · simp only [JobMatchScorer.score, hopt, Finset.image_empty, ne_eq,
      not_true_eq_false, if_false, reduceIte, zero_mul, pyRound2_zero]
  · simp only [JobMatchScorer.missing_optional, hopt, Finset.image_empty,
      Finset.empty_sdiff]

/-- C2: parsing and scoring are total: parsing the empty string yields the
structurally complete profile with empty fields throughout, and each score
component degrades to 0 when its target set (or the experience list) is
empty — no division happens on those paths. -/
theorem totality_spec :
    (ResumeParser.parse "" =
      CandidateProfile.mk ⟨"", "", "", ""⟩ "" [] [] [] [] []) ∧
    (∀ (scorer : JobMatchScorer) (profile : CandidateProfile),
      (scorer.required_skills = ∅ →
        (scorer.score profile).required_coverage = 0) ∧
      (scorer.optional_skills = ∅ →
        (scorer.score profile).optional_coverage = 0) ∧
      (profile.experiences = [] →
        (scorer.score profile).experience_alignment = 0) ∧
      (scorer.required_skills = ∅ →
        (scorer.score profile).experience_alignment = 0)) := by
  refine ⟨by decide, fun scorer profile => ⟨fun h => ?_, fun h => ?_, fun h => ?_, fun h => ?_⟩⟩
  · simp [JobMatchScorer.score, h, pyRound2_zero]
  · simp [JobMatchScorer.score, h, pyRound2_zero]
  · simp [JobMatchScorer.score, JobMatchScorer.score_experience, h, pyRound2_zero]
  · simp [JobMatchScorer.score, JobMatchScorer.score_experience, h, pyRound2_zero]

/-- Witness for C2 at the empty job description and the profile parsed from
the empty string. -/
theorem totality_spec_witness :
    (mkJobMatchScorer "" none none).required_skills = ∅ ∧
    (mkJobMatchScorer "" none none).optional_skills = ∅ ∧
    (ResumeParser.parse "").experiences = [] ∧
    ((mkJobMatchScorer "" none none).score (ResumeParser.parse "")).required_coverage = 0 ∧
    ((mkJobMatchScorer "" none none).score (ResumeParser.parse "")).optional_coverage = 0 ∧
    ((mkJobMatchScorer "" none none).score (ResumeParser.parse "")).experience_alignment = 0 :=
  ⟨by decide, by decide, by decide,
    (totality_spec.2 _ _).1 (by decide),
    (totality_spec.2 _ _).2.1 (by decide),
    (totality_spec.2 _ _).2.2.1 (by decide)⟩

/-- C6: experience alignment is graduated: a canonical required skill is
found iff it, one of its aliases from the synonym table, or a raw required
input canonicalizing to it, occurs as a substring of the lower-cased combined
title/company/description of at least one experience entry; the alignment is
the found fraction as a rounded percentage, 0 without experience entries;
one entry mentioning "Python and Docker" against required
{Python, Docker, AWS} scores 66.67. -/
theorem experience_alignment_spec :
    (∀ (scorer : JobMatchScorer) (profile : CandidateProfile),
      profile.experiences = [] →
        (scorer.score profile).experience_alignment = 0) ∧
    (∀ (scorer : JobMatchScorer) (profile : CandidateProfile),
      profile.experiences ≠ [] →
      scorer.required_skills.image canonicalize_skill ≠ ∅ →
      (scorer.score profile).experience_alignment =
        pyRound2 ((((scorer.required_skills.image canonicalize_skill).filter
            (fun skill => ∃ exp ∈ profile.experiences,
              strContainsB (combinedText exp) skill = true ∨
              (∃ a ∈ (dictFind? SKILL_SYNONYMS skill).getD [],
                strContainsB (combinedText exp) a = true) ∨
              (∃ s ∈ scorer.required_skills, canonicalize_skill s = skill ∧
                strContainsB (combinedText exp) s = true))).card : ℚ) /
          ((scorer.required_skills.image canonicalize_skill).card : ℚ) * 100)) ∧
    ((mkJobMatchScorer "jd" (some ["Python", "Docker", "AWS"]) none).score
        (CandidateProfile.mk ⟨"", "", "", ""⟩ "" []
          [Experience.mk "Software Engineer" "Acme" "Python and Docker" "" []]
          [] [] [])).experience_alignment = 6667 / 100 := by
  refine ⟨fun scorer profile h => ?_, fun scorer profile h1 h2 => ?_, by decide⟩
  · simp [JobMatchScorer.score, JobMatchScorer.score_experience, h, pyRound2_zero]
  · have hcond : ¬(profile.experiences = [] ∨
        scorer.required_skills.image canonicalize_skill = ∅) := by
      simp [h1, h2]
    have hfilter :
        (scorer.required_skills.image canonicalize_skill).filter
          (fun skill => skillFound scorer profile.experiences skill = true) =
        (scorer.required_skills.image canonicalize_skill).filter
          (fun skill => ∃ exp ∈ profile.experiences,
            strContainsB (combinedText exp) skill = true ∨
            (∃ a ∈ (dictFind? SKILL_SYNONYMS skill).getD [],
              strContainsB (combinedText exp) a = true) ∨
            (∃ s ∈ scorer.required_skills, canonicalize_skill s = skill ∧
              strContainsB (combinedText exp) s = true)) := by
      refine Finset.filter_congr ?_
      intro skill _
      simp [skillFound, skillMatchesExp, List.any_eq_true, or_assoc]
    simp only [JobMatchScorer.score, JobMatchScorer.score_experience,
      if_neg hcond, hfilter]

/-- Witness for C6's graduated clause at the concrete scorer and profile of
the 66.67 example. -/
theorem experience_alignment_spec_witness :
    (CandidateProfile.mk ⟨"", "", "", ""⟩ "" []
        [Experience.mk "Software Engineer" "Acme" "Python and Docker" "" []]
        [] [] []).experiences ≠ [] ∧
    (mkJobMatchScorer "jd" (some ["Python", "Docker", "AWS"]) none).required_skills.image
        canonicalize_skill ≠ ∅ ∧
    ((mkJobMatchScorer "jd" (some ["Python", "Docker", "AWS"]) none).score
        (CandidateProfile.mk ⟨"", "", "", ""⟩ "" []
          [Experience.mk "Software Engineer" "Acme" "Python and Docker" "" []]
          [] [] [])).experience_alignment =
      pyRound2 (((((mkJobMatchScorer "jd" (some ["Python", "Docker", "AWS"]) none).required_skills.image
            canonicalize_skill).filter
          (fun skill => ∃ exp ∈ (CandidateProfile.mk ⟨"", "", "", ""⟩ "" []
              [Experience.mk "Software Engineer" "Acme" "Python and Docker" "" []]
              [] [] []).experiences,
            strContainsB (combinedText exp) skill = true ∨
            (∃ a ∈ (dictFind? SKILL_SYNONYMS skill).getD [],
              strContainsB (combinedText exp) a = true) ∨
            (∃ s ∈ (mkJobMatchScorer "jd" (some ["Python", "Docker", "AWS"]) none).required_skills,
              canonicalize_skill s = skill ∧
              strContainsB (combinedText exp) s = true))).card : ℚ) /
        (((mkJobMatchScorer "jd" (some ["Python", "Docker", "AWS"]) none).required_skills.image
            canonicalize_skill).card : ℚ) * 100) :=
  ⟨by decide, by decide,
    experience_alignment_spec.2.1 _ _ (by decide) (by decide)⟩

/-- C7: `missing_required` / `missing_optional` are the canonical target set
minus the canonical candidate set (the same sets the coverage computation
uses), so when a canonical target set is non-empty the coverage equals
`round(100 * (|target| - |missing|) / |target|, 2)`. -/
theorem missing_skills_consistency :
    ∀ (scorer : JobMatchScorer) (profile : CandidateProfile),
      (scorer.missing_required profile =
        scorer.required_skills.image canonicalize_skill \
          ((profile.normalized_skills).map canonicalize_skill).toFinset) ∧
      (scorer.missing_optional profile =
        scorer.optional_skills.image canonicalize_skill \
          ((profile.normalized_skills).map canonicalize_skill).toFinset) ∧
      (scorer.required_skills.image canonicalize_skill ≠ ∅ →
        (scorer.score profile).required_coverage =
          pyRound2 (100 *
            (((scorer.required_skills.image canonicalize_skill).card : ℚ) -
              ((scorer.missing_required profile).card : ℚ)) /
            ((scorer.required_skills.image canonicalize_skill).card : ℚ))) ∧
      (scorer.optional_skills.image canonicalize_skill ≠ ∅ →
        (scorer.score profile).optional_coverage =
          pyRound2 (100 *
            (((scorer.optional_skills.image canonicalize_skill).card : ℚ) -
              ((scorer.missing_optional profile).card : ℚ)) /
            ((scorer.optional_skills.image canonicalize_skill).card : ℚ))) := by
  intro scorer profile
  refine ⟨rfl, rfl, fun h => ?_, fun h => ?_⟩
  · have hcard : ((scorer.required_skills.image canonicalize_skill).card : ℚ) -
        ((scorer.missing_required profile).card : ℚ) =
        ((((profile.normalized_skills).map canonicalize_skill).toFinset ∩
          (scorer.required_skills.image canonicalize_skill)).card : ℚ) := by
      have := Finset.card_sdiff_add_card_inter
        (scorer.required_skills.image canonicalize_skill)
        (((profile.normalized_skills).map canonicalize_skill).toFinset)
      rw [Finset.inter_comm]
      simp only [JobMatchScorer.missing_required]
      push_cast [← this]
      ring
    rw [hcard]
    simp only [JobMatchScorer.score]
    rw [if_pos h]
    ring_nf
  · have hcard : ((scorer.optional_skills.image canonicalize_skill).card : ℚ) -
        ((scorer.missing_optional profile).card : ℚ) =
        ((((profile.normalized_skills).map canonicalize_skill).toFinset ∩
          (scorer.optional_skills.image canonicalize_skill)).card : ℚ) := by
      have := Finset.card_sdiff_add_card_inter
        (scorer.optional_skills.image canonicalize_skill)
        (((profile.normalized_skills).map canonicalize_skill).toFinset)
      rw [Finset.inter_comm]
      simp only [JobMatchScorer.missing_optional]
      push_cast [← this]
      ring
    rw [hcard]
    simp only [JobMatchScorer.score]
    rw [if_pos h]
    ring_nf

/-- Witness for C7 at a concrete scorer and profile. -/
theorem missing_skills_consistency_witness :
    (mkJobMatchScorer "jd" (some ["Python", "Docker"]) (some ["AWS"])).required_skills.image
        canonicalize_skill ≠ ∅ ∧
    ((mkJobMatchScorer "jd" (some ["Python", "Docker"]) (some ["AWS"])).score
        (CandidateProfile.mk ⟨"", "", "", ""⟩ "" ["python"] [] [] [] [])).required_coverage =
      pyRound2 (100 *
        ((((mkJobMatchScorer "jd" (some ["Python", "Docker"]) (some ["AWS"])).required_skills.image
            canonicalize_skill).card : ℚ) -
          (((mkJobMatchScorer "jd" (some ["Python", "Docker"]) (some ["AWS"])).missing_required
            (CandidateProfile.mk ⟨"", "", "", ""⟩ "" ["python"] [] [] [] [])).card : ℚ)) /
        (((mkJobMatchScorer "jd" (some ["Python", "Docker"]) (some ["AWS"])).required_skills.image
            canonicalize_skill).card : ℚ)) :=
  ⟨by decide,
    (missing_skills_consistency _ _).2.2.1 (by decide)⟩

theorem attachEnds_map (total : Nat) (hs : List (String × Nat)) :
    (attachEnds total hs).map (fun p => (p.1, p.2.1)) = hs := by
  induction hs with
  | nil => rfl
  | cons p rest ih =>
      obtain ⟨name, start⟩ := p
      cases rest <;> simp [attachEnds] <;> simpa [attachEnds] using ih

theorem sectionHits_pairwise (lines : List String) :
    (sectionHits lines).Pairwise (fun p q => p.2 < q.2) := by
  have h1 : (lines.enum).Pairwise (fun p q : Nat × String => p.1 < q.1) := by
    have h0 := List.pairwise_lt_range lines.length
    rw [← List.enum_map_fst lines, List.pairwise_map] at h0
    exact h0
  exact List.Pairwise.filterMap _
    (fun a b hab x hx y hy => by
      simp only [Option.mem_def, Option.map_eq_some'] at hx hy
      obtain ⟨ca, -, rfl⟩ := hx
      obtain ⟨cb, -, rfl⟩ := hy
      exact hab) h1

theorem mem_sectionHits {lines : List String} {name : String} {j : Nat} :
    (name, j) ∈ sectionHits lines ↔
      ∃ line, lines.get? j = some line ∧ classify_line line = some name := by
  simp only [sectionHits, List.mem_filterMap, Option.map_eq_some']
  constructor
  · rintro ⟨⟨i, line⟩, hmem, c, hc, heq⟩
    cases heq
    exact ⟨line, by rwa [← List.mem_enum_iff_get?] , hc⟩
  · rintro ⟨line, hmem, hc⟩
    exact ⟨(j, line), List.mem_enum_iff_get?.2 hmem, name, hc, rfl⟩

/-- C3: when several header lines classify to the same canonical name, the
stored `(start, end)` range for that name is the one of the LAST such header
(dict reassignment by canonical key), so the section body returned is the
line run following the final occurrence. -/
theorem section_map_last_wins :
    ∀ (lines : List String) (name : String) (s e : Nat),
      sectionRange? lines name = some (s, e) →
      (∃ hline, lines.get? s = some hline ∧ classify_line hline = some name) ∧
      (∀ j hline, s < j → lines.get? j = some hline →
        classify_line hline ≠ some name) ∧
      section_lines lines name = (lines.take e).drop (s + 1) := by
  intro lines name s e h
  have hmem : (name, (s, e)) ∈ section_map lines := dictFind?_mem h
  have hhit : (name, s) ∈ sectionHits lines := by
    have := List.mem_map_of_mem (fun p : String × Nat × Nat => (p.1, p.2.1)) hmem
    simp only [section_map] at this
    rwa [attachEnds_map] at this
  refine ⟨mem_sectionHits.1 hhit, ?_, ?_⟩
  · intro j hline hj hget hc
    have hjmem : (name, j) ∈ sectionHits lines :=
      mem_sectionHits.2 ⟨hline, hget, hc⟩
    -- decompose the assignment list at the surviving entry
    obtain ⟨m₁, m₂, hsplit, hm₂⟩ := dictFind?_last h
    -- the pairwise-increasing starts of the assignment list
    have hpw : (section_map lines).Pairwise (fun p q => p.2.1 < q.2.1) := by
      have := sectionHits_pairwise lines
      rw [← attachEnds_map lines.length (sectionHits lines),
        List.pairwise_map] at this
      exact this
    -- locate the entry for index j
    have : ∃ q ∈ section_map lines, q.1 = name ∧ q.2.1 = j := by
      have := hjmem
      rw [← attachEnds_map lines.length (sectionHits lines)] at this
      simp only [List.mem_map] at this
      obtain ⟨q, hq, heq⟩ := this
      exact ⟨q, hq, congrArg Prod.fst heq, congrArg (fun r => r.2) heq⟩
    obtain ⟨q, hqmem, hqname, hqstart⟩ := this
    rw [hsplit] at hqmem hpw
    rcases List.mem_append.1 hqmem with hq1 | hq2
    · -- an entry before the surviving one has a smaller start
      have hlt : q.2.1 < s := by
        simpa using (List.pairwise_append.1 hpw).2.2 q hq1 (name, (s, e))
          (List.mem_cons_self _ _)
      omega
    · rcases List.mem_cons.1 hq2 with rfl | hq3
      · simp only at hqstart; omega
      · exact hm₂ q hq3 hqname
  · simp only [section_lines, h]

/-- Witness for C3: a document with two "Experience" headers; the stored
range belongs to the second one, and the section body is the run after it. -/
theorem section_map_last_wins_witness :
    sectionRange? (parseLines
        "Intro\nExperience\nA Engineer\nAcme\nExperience\nB Developer\nBeta\nSkills: Python")
        "experience" = some (4, 7) ∧
    (∃ hline, (parseLines
        "Intro\nExperience\nA Engineer\nAcme\nExperience\nB Developer\nBeta\nSkills: Python").get? 4 =
        some hline ∧ classify_line hline = some "experience") ∧
    section_lines (parseLines
        "Intro\nExperience\nA Engineer\nAcme\nExperience\nB Developer\nBeta\nSkills: Python")
        "experience" = ["B Developer", "Beta"] := by
  have h := section_map_last_wins (parseLines
    "Intro\nExperience\nA Engineer\nAcme\nExperience\nB Developer\nBeta\nSkills: Python")
    "experience" 4 7 (by decide)
  exact ⟨by decide, h.1, by decide⟩

/-- C8: name extraction scans the first five lines, skipping lines starting
with a non-name pattern, lines classifying as section headers, and lines
containing an email/phone match without a two-word alphabetic run; it returns
the first survivor, else the document's first line, else the empty string —
and the Curriculum-Vitae document yields the name "Alice Johnson". -/
theorem extract_name_spec :
    (∀ text, (ResumeParser.parse text).contact.name =
      extract_name (parseLines text)) ∧
    (∀ lines line, (lines.take 5).find? nameLineOk = some line →
      extract_name lines = line) ∧
    (∀ lines : List String, (∀ l ∈ lines.take 5, nameLineOk l = false) →
      extract_name lines = lines.head?.getD "") ∧
    extract_name [] = "" ∧
    (∀ line, nameLineOk line = true ↔
      ((∀ pat ∈ NON_NAME_PATTERNS, ¬ pat.data <+: (pyStrip (pyLower line)).data) ∧
       classify_line line = none ∧
       (EMAIL_RE.searchB line = true → TWOWORD_RE.searchB line = true) ∧
       (PHONE_RE.searchB line = true → TWOWORD_RE.searchB line = true))) ∧
    (ResumeParser.parse
      "Curriculum Vitae\nAlice Johnson\nalice@example.com\nLondon, UK\n...").contact.name =
      "Alice Johnson" := by
  refine ⟨fun text => rfl, fun lines line h => ?_, fun lines h => ?_, rfl,
    fun line => ?_, by decide⟩
  · simp only [extract_name, h]
  · have : (lines.take 5).find? nameLineOk = none := by
      rw [List.find?_eq_none]
      intro x hx
      simp [h x hx]
    simp only [extract_name, this]
  · simp only [nameLineOk, Bool.and_eq_true, Bool.not_eq_true',
      List.any_eq_false, decide_eq_false_iff_not, decide_eq_true_eq,
      Option.isNone_iff_eq_none, Bool.and_eq_false_iff, Bool.eq_false_iff,
      ne_eq]
    constructor
    · rintro ⟨⟨⟨h1, h2⟩, h3⟩, h4⟩
      simp only [List.any_eq_true, decide_eq_true_eq, not_exists, not_and] at h1
      exact ⟨h1, h2, fun he => by by_contra htw; exact h3 ⟨he, htw⟩,
        fun hp => by by_contra htw; exact h4 ⟨hp, htw⟩⟩
    · rintro ⟨h1, h2, h3, h4⟩
      refine ⟨⟨⟨?_, h2⟩, fun hc => hc.2 (h3 hc.1)⟩, fun hc => hc.2 (h4 hc.1)⟩
      simp only [List.any_eq_true, decide_eq_true_eq, not_exists, not_and]
      exact h1

/-- Witness for C8's first-survivor clause at the Curriculum-Vitae document. -/
theorem extract_name_spec_witness :
    ((parseLines
        "Curriculum Vitae\nAlice Johnson\nalice@example.com\nLondon, UK\n...").take 5).find?
      nameLineOk = some "Alice Johnson" ∧
    extract_name (parseLines
      "Curriculum Vitae\nAlice Johnson\nalice@example.com\nLondon, UK\n...") =
      "Alice Johnson" :=
  ⟨by decide, extract_name_spec.2.1 _ _ (by decide)⟩

/-! ## String-normalization lemmas for `normalized_skills` -/

theorem toNat_ofNat_of_lt {n : Nat} (h : n < 55296) : (Char.ofNat n).toNat = n := by
  have hv : n.isValidChar := Or.inl h
  unfold Char.ofNat
  rw [dif_pos hv]
  rfl

theorem pyLowerChar_idem (c : Char) :
    pyLowerChar (pyLowerChar c) = pyLowerChar c := by
  simp only [pyLowerChar, Char.toLower]
  by_cases h : c.toNat ≥ 65 ∧ c.toNat ≤ 90
  · rw [if_pos h]
    have h2 : (Char.ofNat (c.toNat + 32)).toNat = c.toNat + 32 :=
      toNat_ofNat_of_lt (by omega)
    rw [if_neg (by rw [h2]; omega)]
  · rw [if_neg h, if_neg h]

theorem isSpaceB_pyLowerChar (c : Char) :
    isSpaceB (pyLowerChar c) = isSpaceB c := by
  simp only [pyLowerChar, Char.toLower]
  by_cases h : c.toNat ≥ 65 ∧ c.toNat ≤ 90
  · rw [if_pos h]
    have h2 : (Char.ofNat (c.toNat + 32)).toNat = c.toNat + 32 :=
      toNat_ofNat_of_lt (by omega)
    have ha : isSpaceB (Char.ofNat (c.toNat + 32)) = false := by
      simp only [isSpaceB, h2, Bool.or_eq_false_iff, decide_eq_false_iff_not]
      omega
    have hb : isSpaceB c = false := by
      simp only [isSpaceB, Bool.or_eq_false_iff, decide_eq_false_iff_not]
      omega
    rw [ha, hb]
  · rw [if_neg h]

theorem dropWhile_map_lower (l : List Char) :
    (l.map pyLowerChar).dropWhile isSpaceB =
      (l.dropWhile isSpaceB).map pyLowerChar := by
  induction l with
  | nil => rfl
  | cons c l ih =>
      simp only [List.map_cons, List.dropWhile_cons, isSpaceB_pyLowerChar]
      by_cases h : isSpaceB c = true
      · simp [h, ih]
      · simp [h]

theorem rdropWhile_map_lower (l : List Char) :
    (l.map pyLowerChar).rdropWhile isSpaceB =
      (l.rdropWhile isSpaceB).map pyLowerChar := by
  simp only [List.rdropWhile, ← List.map_reverse, dropWhile_map_lower]

theorem pyStrip_pyLower_comm (s : String) :
    pyStrip (pyLower s) = pyLower (pyStrip s) := by
  simp only [pyStrip, pyLower, dropWhile_map_lower, rdropWhile_map_lower]

theorem pyLower_idem (s : String) : pyLower (pyLower s) = pyLower s := by
  simp only [pyLower, List.map_map]
  congr 1
  exact List.map_congr_left fun c _ => pyLowerChar_idem c

theorem dropWhile_eq_self_of_pre {q m : List Char}
    (hpre : q <+: m) (hm : m.dropWhile isSpaceB = m) :
    q.dropWhile isSpaceB = q := by
  cases q with
  | nil => rfl
  | cons a q' =>
      obtain ⟨t, rfl⟩ := hpre
      rw [List.cons_append, List.dropWhile_cons] at hm
      rw [List.dropWhile_cons]
      by_cases h : isSpaceB a = true
      · rw [if_pos h] at hm
        have hlen := congrArg List.length hm
        have hle : ((q' ++ t).dropWhile isSpaceB).length ≤ (q' ++ t).length :=
          ( List.dropWhile_suffix isSpaceB).length_le
        simp only [List.length_cons] at hlen
        omega
      · rw [if_neg h]

theorem stripData_idem (l : List Char) :
    ((((l.dropWhile isSpaceB).rdropWhile isSpaceB).dropWhile
        isSpaceB).rdropWhile isSpaceB) =
      (l.dropWhile isSpaceB).rdropWhile isSpaceB := by
  have h1 : (l.dropWhile isSpaceB).dropWhile isSpaceB = l.dropWhile isSpaceB :=
    List.dropWhile_idempotent _ _
  have h2 : ((l.dropWhile isSpaceB).rdropWhile isSpaceB).dropWhile isSpaceB =
      (l.dropWhile isSpaceB).rdropWhile isSpaceB :=
    dropWhile_eq_self_of_pre ( List.rdropWhile_prefix _ _) h1
  rw [h2, List.rdropWhile_idempotent]

theorem pyStrip_idem (s : String) : pyStrip (pyStrip s) = pyStrip s := by
  simp only [pyStrip]
  exact congrArg String.mk (stripData_idem s.data)

theorem pyLower_eq_empty {s : String} : pyLower s = "" ↔ s = "" := by
  constructor
  · intro h
    have := congrArg String.data h
    simp only [pyLower, List.map_eq_nil_iff] at this
    cases s
    simp_all
  · rintro rfl
    rfl

theorem pyStrip_pyLower_empty (s : String) :
    pyStrip (pyLower s) = "" ↔ pyStrip s = "" := by
  rw [pyStrip_pyLower_comm, pyLower_eq_empty]

theorem stripLower_fixed (s : String) :
    pyStrip (pyLower (pyStrip (pyLower s))) = pyStrip (pyLower s) := by
  have h1 : pyLower (pyStrip (pyLower s)) = pyStrip (pyLower s) := by
    rw [← pyStrip_pyLower_comm, pyLower_idem]
  rw [h1, pyStrip_idem]

theorem lexLE_iff : ∀ (as bs : List Char), lexLE as bs = true ↔ ¬ List.lt bs as
  | [], bs => by
      simp only [lexLE]
      exact iff_of_true trivial (fun h => by cases h)
  | a :: as, [] => by
      simp only [lexLE]
      exact iff_of_false (by simp) (fun h => h (List.lt.nil a as))
  | a :: as, b :: bs => by
      simp only [lexLE]
      by_cases hab : a < b
      · rw [if_pos hab]
        refine iff_of_true rfl (fun h => ?_)
        cases h with
        | head _ _ hba => exact Char.lt_asymm hab hba
        | tail h1 h2 _ => exact h2 hab
      · rw [if_neg hab]
        by_cases hba : b < a
        · rw [if_pos hba]
          refine iff_of_false (by simp) (fun h => h (List.lt.head _ _ hba))
        · rw [if_neg hba]
          rw [lexLE_iff as bs]
          constructor
          · intro h1 h
            cases h with
            | head _ _ h2 => exact hba h2
            | tail _ _ h3 => exact h1 h3
          · intro h1 h2
            exact h1 (List.lt.tail hba hab h2)

theorem pyLE_iff (a b : String) : pyLE a b = true ↔ a ≤ b := by
  rw [String.le_iff_toList_le, ← not_lt]
  show lexLE a.data b.data = true ↔ ¬ b.toList < a.toList
  rw [lexLE_iff a.data b.data]
  show ¬ List.lt b.data a.data ↔ ¬ List.Lex (· < ·) b.data a.data
  exact not_congr (List.lt_iff_lex_lt b.data a.data)

instance : IsTotal String (fun a b => pyLE a b = true) :=
  ⟨fun a b => by
    simp only [pyLE_iff]
    exact le_total a b⟩

instance : IsTrans String (fun a b => pyLE a b = true) :=
  ⟨fun a b c hab hbc => by
    rw [pyLE_iff] at *
    exact le_trans hab hbc⟩

theorem mem_normalized_skills (p : CandidateProfile) (x : String) :
    x ∈ p.normalized_skills ↔
      ∃ s ∈ p.skills, pyStrip s ≠ "" ∧ x = pyStrip (pyLower s) := by
  simp only [CandidateProfile.normalized_skills]
  rw [(List.perm_insertionSort _ _).mem_iff, List.mem_dedup]
  simp only [List.mem_map, List.mem_filter, decide_eq_true_eq]
  constructor
  · rintro ⟨s, ⟨hs, hne⟩, rfl⟩
    exact ⟨s, hs, hne, rfl⟩
  · rintro ⟨s, hs, hne, rfl⟩
    exact ⟨s, ⟨hs, hne⟩, rfl⟩

theorem normalized_skills_sorted (p : CandidateProfile) :
    (p.normalized_skills).Sorted (fun a b => pyLE a b = true) :=
  List.sorted_insertionSort _ _

theorem normalized_skills_sorted_le (p : CandidateProfile) :
    (p.normalized_skills).Sorted (· ≤ ·) :=
  (normalized_skills_sorted p).imp (fun hab => (pyLE_iff _ _).1 hab)

theorem normalized_skills_nodup (p : CandidateProfile) :
    (p.normalized_skills).Nodup :=
  ((List.perm_insertionSort _ _).nodup_iff).2 (List.nodup_dedup _)

theorem normalized_skills_fixed {p : CandidateProfile} {x : String}
    (hx : x ∈ p.normalized_skills) :
    x = pyStrip (pyLower x) ∧ x ≠ "" := by
  obtain ⟨s, -, hne, rfl⟩ := (mem_normalized_skills p x).1 hx
  refine ⟨(stripLower_fixed s).symm, ?_⟩
  intro h0
  exact hne ((pyStrip_pyLower_empty s).1 h0)

theorem normalized_skills_idem {p q : CandidateProfile}
    (h : q.skills = p.normalized_skills) :
    q.normalized_skills = p.normalized_skills := by
  have hfix : ∀ x ∈ p.normalized_skills, pyStrip (pyLower x) = x :=
    fun x hx => (normalized_skills_fixed hx).1.symm
  have hstrip : ∀ x ∈ p.normalized_skills, pyStrip x = x := by
    intro x hx
    obtain ⟨hx1, -⟩ := normalized_skills_fixed hx
    calc pyStrip x = pyStrip (pyStrip (pyLower x)) := by rw [← hx1]
    _ = pyStrip (pyLower x) := pyStrip_idem _
    _ = x := (hfix x hx)
  have hne : ∀ x ∈ p.normalized_skills, pyStrip x ≠ "" := by
    intro x hx
    rw [hstrip x hx]
    exact (normalized_skills_fixed hx).2
  show List.insertionSort _ ((List.map _ (List.filter _ q.skills)).dedup) = _
  rw [h]
  have h1 : (p.normalized_skills).filter (fun s => decide (pyStrip s ≠ "")) =
      p.normalized_skills :=
    List.filter_eq_self.2 fun x hx => decide_eq_true (hne x hx)
  rw [h1]
  have h2 : (p.normalized_skills).map (fun s => pyStrip (pyLower s)) =
      p.normalized_skills := by
    have := List.map_congr_left (f := fun s => pyStrip (pyLower s)) (g := id) hfix
    rw [this, List.map_id]
  rw [h2]
  rw [List.dedup_eq_self.2 (normalized_skills_nodup p)]
  exact (normalized_skills_sorted p).insertionSort_eq

/-- C5: `normalized_skills` is the lexicographically sorted, deduplicated
sequence of the lower-cased trimmed non-blank skills, and it is idempotent:
a profile whose skills field is the normalized output normalizes to the same
sequence. -/
theorem normalized_skills_spec :
    ∀ (p : CandidateProfile),
      ((p.normalized_skills).Sorted (· ≤ ·) ∧ (p.normalized_skills).Nodup) ∧
      (∀ x, x ∈ p.normalized_skills ↔
        ∃ s ∈ p.skills, pyStrip s ≠ "" ∧ x = pyStrip (pyLower s)) ∧
      (∀ x ∈ p.normalized_skills, x = pyStrip (pyLower x) ∧ x ≠ "") ∧
      (∀ q : CandidateProfile, q.skills = p.normalized_skills →
        q.normalized_skills = p.normalized_skills) :=
  fun p =>
    ⟨⟨normalized_skills_sorted_le p, normalized_skills_nodup p⟩,
     mem_normalized_skills p,
     fun _ hx => normalized_skills_fixed hx,
     fun _ hq => normalized_skills_idem hq⟩

/-- Witness for C5's idempotence clause at a concrete skill sequence. -/
theorem normalized_skills_spec_witness :
    (CandidateProfile.mk ⟨"", "", "", ""⟩ "" ["js", "python"] [] [] [] []).skills =
      (CandidateProfile.mk ⟨"", "", "", ""⟩ "" ["  JS ", "Python", "js", ""]
        [] [] [] []).normalized_skills ∧
    (CandidateProfile.mk ⟨"", "", "", ""⟩ "" ["js", "python"] [] [] [] []).normalized_skills =
      (CandidateProfile.mk ⟨"", "", "", ""⟩ "" ["  JS ", "Python", "js", ""]
        [] [] [] []).normalized_skills :=
  ⟨by decide,
    (normalized_skills_spec _).2.2.2 _ (by decide)⟩

end SortingHat
